import Mathlib

/-!
Shallow embedding of the monthly financial settlement pipeline of the
`edu_cooperative` repository (`apps/financials/services.py`,
`apps/financials/models.py`, `apps/members/models.py`), together with
theorems settling the specification claims about it.

Modelling conventions:
* Python `Decimal` arithmetic is exact for all operations the pipeline
  performs (additions, subtractions, multiplications, and divisions by
  100 of two-decimal-place operands), so money values are embedded as `ℚ`.
* A Django `DecimalField(decimal_places=2)` quantizes the value to two
  decimal places (round half to even, the default `decimal` context
  rounding used by `format_number`) when a row is written to the
  database.  The `save…` functions below model that store boundary;
  the in-memory model instances keep the exact values, as in Python.
* Database tables are embedded as lists of rows; `update_or_create`
  becomes a find-first-and-replace-else-append upsert on the list.
* Statuses and employment kinds are embedded as strings, exactly the
  literals the source uses.
-/

namespace EduCoop

/-- Calendar date, as used by `datetime.date` in the service code. -/
structure Date where
  year : Nat
  month : Nat
  day : Nat
deriving DecidableEq, Repr

/-- Date comparison (`<=` on `datetime.date`): lexicographic. -/
def Date.le (a b : Date) : Bool :=
  (a.year < b.year) ||
    (a.year == b.year &&
      ((a.month < b.month) ||
        (a.month == b.month && a.day ≤ b.day)))

/-- Gregorian leap year, as `calendar`/`datetime` use. -/
def isLeap (y : Nat) : Bool :=
  y % 4 == 0 && (y % 100 != 0 || y % 400 == 0)

/-- Number of days in a Gregorian month. -/
def daysInMonth (y m : Nat) : Nat :=
  if m == 2 then (if isLeap y then 29 else 28)
  else if m == 4 || m == 6 || m == 9 || m == 11 then 30
  else 31

/-- `period_month.replace(day=1)`: first day of the month of `d`. -/
def firstDay (d : Date) : Date := { d with day := 1 }

/-- `first-of-month minus timedelta(days=1)`: the day before the first of
month `(y, m)`, i.e. the last day of the previous month. -/
def dayBeforeFirst (y m : Nat) : Date :=
  if m == 1 then ⟨y - 1, 12, 31⟩ else ⟨y, m - 1, daysInMonth y (m - 1)⟩

/-- Last day of the month of `d`, computed as the service does
(`services.py` lines 32–36 and 83–87): first day of the next month
minus one day, with a special case for December. -/
def lastDay (d : Date) : Date :=
  if d.month == 12 then dayBeforeFirst (d.year + 1) 1
  else dayBeforeFirst d.year (d.month + 1)

/-- Round a rational to the nearest integer, ties to even — the default
rounding of the Python `decimal` context that Django's `format_number`
applies when adapting a `DecimalField` value for the database. -/
def roundHalfEvenZ (x : ℚ) : ℤ :=
  let f := ⌊x⌋
  if x - f < 1 / 2 then f
  else if 1 / 2 < x - f then f + 1
  else if f % 2 = 0 then f else f + 1

/-- Quantization of a stored `DecimalField(decimal_places=2)` value:
round to two decimal places, half to even. -/
def quantize2 (x : ℚ) : ℚ := (roundHalfEvenZ (x * 100) : ℚ) / 100

/-- `x` has at most two decimal places (is an integer number of cents). -/
def Is2dp (x : ℚ) : Prop := ∃ n : ℤ, x = (n : ℚ) / 100

/- ----------------------------------------------------------------
Entity rows (`apps/instructors/models.py`, `apps/courses/models.py`,
`apps/payments/models.py`, `apps/members/models.py`,
`apps/financials/models.py`).  Only the fields the settlement pipeline
reads or writes are embedded.
---------------------------------------------------------------- -/

/-- `Instructor`: the fields the payment calculator reads. -/
structure Instructor where
  id : Nat
  status : String
  hourly_rate : ℚ
  tax_rate_percentage : ℚ
deriving DecidableEq, Repr

/-- A `Course` row: the date range used for period overlap. -/
structure Course where
  start_date : Date
  end_date : Date
deriving DecidableEq, Repr

/-- `CourseInstructor` assignment row. -/
structure CourseInstructor where
  instructor_id : Nat
  course : Course
  hours_taught : ℚ
deriving DecidableEq, Repr

/-- A student `Payment` row: fields read by the settlement calculator. -/
structure Payment where
  amount_paid : ℚ
  payment_date : Option Date
  status : String
deriving DecidableEq, Repr

/-- An `Expense` row: fields read by the settlement calculator. -/
structure Expense where
  amount : ℚ
  period_month : Date
  status : String
deriving DecidableEq, Repr

/-- A cooperative `Member` row. -/
structure Member where
  id : Nat
  status : String
  employment_status : String
  share_percentage : ℚ
deriving DecidableEq, Repr

/-- `Member.can_receive_profit` (`apps/members/models.py` lines 65–68):
public employees cannot receive profit distribution. -/
def Member.can_receive_profit (m : Member) : Bool :=
  m.employment_status != "public" && m.status == "active"

/-- `InstructorPayment` row.  `payment_date` stands for the fields the
upsert does not overwrite (payment details entered by staff). -/
structure InstructorPayment where
  instructor_id : Nat
  period_month : Date
  total_hours : ℚ
  hourly_rate : ℚ
  gross_amount : ℚ
  tax_amount : ℚ
  net_amount : ℚ
  status : String
  payment_date : Option Date
deriving DecidableEq, Repr

/-- `MonthlyFinancial` row. -/
structure MonthlyFinancial where
  period_month : Date
  total_revenue : ℚ
  instructor_payments : ℚ
  operational_expenses : ℚ
  other_expenses : ℚ
  total_expenses : ℚ
  gross_profit : ℚ
  retained_earnings : ℚ
  distributable_profit : ℚ
  is_finalized : Bool
deriving DecidableEq, Repr

/-- `MemberDistribution` row.  The foreign key to `MonthlyFinancial` is
represented by the summary's (unique) `period_month`; `payment_date`
stands for the fields the upsert does not overwrite. -/
structure MemberDistribution where
  member_id : Nat
  period_month : Date
  share_percentage : ℚ
  amount : ℚ
  status : String
  is_public_employee : Bool
  payment_date : Option Date
deriving DecidableEq, Repr

/- ----------------------------------------------------------------
Store boundary: writing a row quantizes every `DecimalField` to its
declared two decimal places.
---------------------------------------------------------------- -/

/-- Database image of an `InstructorPayment` on save: every decimal
field (`total_hours`, `hourly_rate`, `gross_amount`, `tax_amount`,
`net_amount`, all `decimal_places=2`) is quantized. -/
def savePayment (p : InstructorPayment) : InstructorPayment :=
  { p with
    total_hours := quantize2 p.total_hours
    hourly_rate := quantize2 p.hourly_rate
    gross_amount := quantize2 p.gross_amount
    tax_amount := quantize2 p.tax_amount
    net_amount := quantize2 p.net_amount }

/-- Database image of a `MonthlyFinancial` on save. -/
def saveSummary (s : MonthlyFinancial) : MonthlyFinancial :=
  { s with
    total_revenue := quantize2 s.total_revenue
    instructor_payments := quantize2 s.instructor_payments
    operational_expenses := quantize2 s.operational_expenses
    other_expenses := quantize2 s.other_expenses
    total_expenses := quantize2 s.total_expenses
    gross_profit := quantize2 s.gross_profit
    retained_earnings := quantize2 s.retained_earnings
    distributable_profit := quantize2 s.distributable_profit }

/-- Database image of a `MemberDistribution` on save. -/
def saveDistribution (d : MemberDistribution) : MemberDistribution :=
  { d with
    share_percentage := quantize2 d.share_percentage
    amount := quantize2 d.amount }

/- ----------------------------------------------------------------
Instructor payment calculator
(`FinancialCalculationService.calculate_instructor_payments`,
`services.py` lines 20–69, and `InstructorPayment.calculate_amounts`,
`models.py` lines 88–93).
---------------------------------------------------------------- -/

/-- `InstructorPayment.calculate_amounts` (`models.py` lines 88–93):
`gross = total_hours * hourly_rate`,
`tax = gross * (instructor.tax_rate_percentage / 100)`,
`net = gross - tax`, assigned to the instance fields. -/
def calculate_amounts (tax_rate_percentage : ℚ) (p : InstructorPayment) :
    InstructorPayment :=
  let gross := p.total_hours * p.hourly_rate
  let tax := gross * (tax_rate_percentage / 100)
  { p with gross_amount := gross, tax_amount := tax, net_amount := gross - tax }

/-- Total hours for an instructor over the period (`services.py`
lines 45–51): sum of `hours_taught` over assignments whose course
interval `[start_date, end_date]` intersects `[first, last]`
(`start_date <= last` and `end_date >= first`); an empty sum is `0`. -/
def totalHours (asgs : List CourseInstructor) (iid : Nat)
    (first last : Date) : ℚ :=
  ((asgs.filter (fun a =>
      a.instructor_id == iid &&
      Date.le a.course.start_date last &&
      Date.le first a.course.end_date)).map
    (fun a => a.hours_taught)).sum

/-- Key match for the `(instructor, period_month)` unique key of
`InstructorPayment` (`models.py` line 76, `unique_together`). -/
def pKey (iid : Nat) (first : Date) (r : InstructorPayment) : Bool :=
  r.instructor_id == iid && r.period_month == first

/-- The in-memory `InstructorPayment` instance after
`update_or_create(defaults={total_hours, hourly_rate, status:"pending"})`
followed by `calculate_amounts` (`services.py` lines 55–66), with `pd`
the preserved `payment_date` of the pre-existing row (`none` on the
create path). -/
def memRow (i : Instructor) (th : ℚ) (first : Date)
    (pd : Option Date) : InstructorPayment :=
  calculate_amounts i.tax_rate_percentage
    { instructor_id := i.id, period_month := first, total_hours := th,
      hourly_rate := i.hourly_rate, gross_amount := 0, tax_amount := 0,
      net_amount := 0, status := "pending", payment_date := pd }

/-- The stored row after the saves inside the upsert-and-calculate
step: the in-memory instance, quantized at the store boundary. -/
def storedRow (i : Instructor) (th : ℚ) (first : Date)
    (pd : Option Date) : InstructorPayment :=
  savePayment (memRow i th first pd)

/-- `InstructorPayment.objects.update_or_create(instructor, period_month,
defaults=...)` followed by `payment.calculate_amounts()` (`services.py`
lines 55–66): replace the first row with the matching key (preserving
its `payment_date`), else append a fresh row.  Returns the new table
and the in-memory instance appended to the result list. -/
def upsertCalc (i : Instructor) (th : ℚ) (first : Date) :
    List InstructorPayment → List InstructorPayment × InstructorPayment
  | [] => ([storedRow i th first none], memRow i th first none)
  | r :: rs =>
    if pKey i.id first r then
      (storedRow i th first r.payment_date :: rs,
        memRow i th first r.payment_date)
    else
      (r :: (upsertCalc i th first rs).1, (upsertCalc i th first rs).2)

/-- The per-instructor loop of `calculate_instructor_payments`
(`services.py` lines 43–67): skip instructors whose summed hours are
not `> 0`, upsert-and-calculate the rest. -/
def runPayments (asgs : List CourseInstructor) (first last : Date) :
    List Instructor → List InstructorPayment →
    List InstructorPayment × List InstructorPayment
  | [], table => ([], table)
  | i :: is, table =>
    if 0 < totalHours asgs i.id first last then
      ((upsertCalc i (totalHours asgs i.id first last) first table).2 ::
          (runPayments asgs first last is
            (upsertCalc i (totalHours asgs i.id first last) first table).1).1,
        (runPayments asgs first last is
          (upsertCalc i (totalHours asgs i.id first last) first table).1).2)
    else
      runPayments asgs first last is table

/-- `FinancialCalculationService.calculate_instructor_payments`
(`services.py` lines 20–69): restrict to instructors with
`status='active'`, then run the loop over the month window.
Returns the list of payment instances and the updated table. -/
def calculate_instructor_payments (instructors : List Instructor)
    (asgs : List CourseInstructor) (period : Date)
    (table : List InstructorPayment) :
    List InstructorPayment × List InstructorPayment :=
  runPayments asgs (firstDay period) (lastDay period)
    (instructors.filter (fun i => i.status == "active")) table

/- ----------------------------------------------------------------
Member distribution allocator
(`FinancialCalculationService._create_member_distributions`,
`services.py` lines 134–167).
---------------------------------------------------------------- -/

/-- Key match for the `(member, monthly_financial)` unique key of
`MemberDistribution` (`models.py` line 258, `unique_together`);
the parent summary is identified by its unique `period_month`. -/
def dKey (mid : Nat) (period : Date) (d : MemberDistribution) : Bool :=
  d.member_id == mid && d.period_month == period

/-- The in-memory `MemberDistribution` instance the allocator upserts
for member `m` (`services.py` lines 149–164):
`amount = distributable_profit * share_percentage / 100`,
`status = "pending" if member.can_receive_profit else "cancelled"`,
`is_public_employee = (member.employment_status == "public")`;
`pd` is the preserved `payment_date` of a pre-existing row. -/
def distRow (m : Member) (distributable_profit : ℚ) (period : Date)
    (pd : Option Date) : MemberDistribution :=
  { member_id := m.id, period_month := period,
    share_percentage := m.share_percentage,
    amount := distributable_profit * m.share_percentage / 100,
    status := if m.can_receive_profit then "pending" else "cancelled",
    is_public_employee := m.employment_status == "public",
    payment_date := pd }

/-- `MemberDistribution.objects.update_or_create(member,
monthly_financial, defaults=...)` (`services.py` lines 155–164):
replace the first row with the matching key (preserving its
`payment_date`), else append.  `MemberDistribution.save` re-derives
`is_public_employee` from the member (`models.py` lines 270–273),
which equals the value the defaults already carry.  Returns the new
table and the in-memory instance. -/
def upsertDist (m : Member) (dp : ℚ) (period : Date) :
    List MemberDistribution → List MemberDistribution × MemberDistribution
  | [] => ([saveDistribution (distRow m dp period none)], distRow m dp period none)
  | r :: rs =>
    if dKey m.id period r then
      (saveDistribution (distRow m dp period r.payment_date) :: rs,
        distRow m dp period r.payment_date)
    else
      (r :: (upsertDist m dp period rs).1, (upsertDist m dp period rs).2)

/-- The per-member loop of `_create_member_distributions`
(`services.py` lines 148–165). -/
def runDistributions (dp : ℚ) (period : Date) :
    List Member → List MemberDistribution →
    List MemberDistribution × List MemberDistribution
  | [], table => ([], table)
  | m :: ms, table =>
    ((upsertDist m dp period table).2 ::
        (runDistributions dp period ms (upsertDist m dp period table).1).1,
      (runDistributions dp period ms (upsertDist m dp period table).1).2)

/-- `FinancialCalculationService._create_member_distributions`
(`services.py` lines 134–167): fetch active members, compute
`total_shares = Σ share_percentage`, return with no writes when it is
zero, else upsert one distribution per active member.  Returns the
distributions list and the updated table. -/
def create_member_distributions (members0 : List Member)
    (summary : MonthlyFinancial) (table : List MemberDistribution) :
    List MemberDistribution × List MemberDistribution :=
  let members := members0.filter (fun m => m.status == "active")
  let total_shares := (members.map (fun m => m.share_percentage)).sum
  if total_shares == 0 then ([], table)
  else runDistributions summary.distributable_profit summary.period_month
    members table

/- ----------------------------------------------------------------
Monthly settlement calculator
(`FinancialCalculationService.calculate_monthly_profit`,
`services.py` lines 71–132, and `MonthlyFinancial.calculate_totals`,
`models.py` lines 188–196).
---------------------------------------------------------------- -/

/-- `Payment.objects.filter(payment_date__gte=first,
payment_date__lte=last, status='paid').aggregate(Sum('amount_paid'))`
(`services.py` lines 90–94); a `NULL` `payment_date` matches no range
lookup, and an empty aggregate yields `0`. -/
def totalRevenue (payments : List Payment) (first last : Date) : ℚ :=
  ((payments.filter (fun p =>
      (match p.payment_date with
        | some d => Date.le first d && Date.le d last
        | none => false) &&
      p.status == "paid")).map (fun p => p.amount_paid)).sum

/-- `InstructorPayment.objects.filter(period_month=first,
status__in=['approved','paid']).aggregate(Sum('net_amount'))`
(`services.py` lines 97–100). -/
def instructorPaymentsTotal (table : List InstructorPayment)
    (first : Date) : ℚ :=
  ((table.filter (fun r =>
      r.period_month == first &&
      (r.status == "approved" || r.status == "paid"))).map
    (fun r => r.net_amount)).sum

/-- `Expense.objects.filter(period_month=first,
status='paid').aggregate(Sum('amount'))` (`services.py` lines 103–106). -/
def operationalExpenses (expenses : List Expense) (first : Date) : ℚ :=
  ((expenses.filter (fun e =>
      e.period_month == first && e.status == "paid")).map
    (fun e => e.amount)).sum

/-- `MonthlyFinancial.calculate_totals` (`models.py` lines 188–196):
`total_expenses = instructor_payments + operational_expenses +
other_expenses`; `gross_profit = total_revenue - total_expenses`. -/
def calculate_totals (s : MonthlyFinancial) : MonthlyFinancial :=
  let te := s.instructor_payments + s.operational_expenses + s.other_expenses
  { s with total_expenses := te, gross_profit := s.total_revenue - te }

/-- Replace the first `MonthlyFinancial` row with the given
`period_month` (the model's unique key, `models.py` line 100) by the
stored image of `s`, else append it: the net effect on the table of
the `update_or_create` and the two subsequent `save()` calls in
`calculate_monthly_profit`. -/
def writeSummary (s : MonthlyFinancial) :
    List MonthlyFinancial → List MonthlyFinancial
  | [] => [saveSummary s]
  | r :: rs =>
    if r.period_month == s.period_month then saveSummary s :: rs
    else r :: writeSummary s rs

/-- Result of one run of `calculate_monthly_profit`: the returned
in-memory summary instance, the new summary table, the new
distribution table, and the distribution instances the allocator
returned (empty when allocation was skipped). -/
structure SettlementResult where
  summary : MonthlyFinancial
  summaryTable : List MonthlyFinancial
  distTable : List MemberDistribution
  distributions : List MemberDistribution
deriving Repr

/-- The in-memory summary instance `calculate_monthly_profit` builds
(`services.py` lines 89–126): the aggregations, the `update_or_create`
with defaults `{total_revenue, instructor_payments,
operational_expenses, other_expenses: 0}` (which preserves the
remaining fields of an existing row, notably `is_finalized`, and uses
the model defaults `0`/`False` on the create path), then
`calculate_totals` and the retained/distributable assignments. -/
def settlementSummary (payments : List Payment)
    (ipTable : List InstructorPayment) (expenses : List Expense)
    (summaryTable : List MonthlyFinancial) (period : Date)
    (retained_earnings_percentage : ℚ) : MonthlyFinancial :=
  let first := firstDay period
  let last := lastDay period
  let revenue := totalRevenue payments first last
  let ipTotal := instructorPaymentsTotal ipTable first
  let op := operationalExpenses expenses first
  let base : MonthlyFinancial :=
    match summaryTable.find? (fun s => s.period_month == first) with
    | some s =>
      { s with
        total_revenue := revenue
        instructor_payments := ipTotal
        operational_expenses := op
        other_expenses := 0 }
    | none =>
      { period_month := first
        total_revenue := revenue
        instructor_payments := ipTotal
        operational_expenses := op
        other_expenses := 0
        total_expenses := 0
        gross_profit := 0
        retained_earnings := 0
        distributable_profit := 0
        is_finalized := false }
  let s1 := calculate_totals base
  let retained := s1.gross_profit * (retained_earnings_percentage / 100)
  { s1 with
    retained_earnings := retained
    distributable_profit := s1.gross_profit - retained }

/-- `FinancialCalculationService.calculate_monthly_profit`
(`services.py` lines 71–132): build the summary instance, write its
saved image to the summary table (the net effect of the
`update_or_create` and the two subsequent `save()` calls), and invoke
the allocator only when `distributable_profit > 0` (line 129). -/
def calculate_monthly_profit (members : List Member)
    (payments : List Payment) (ipTable : List InstructorPayment)
    (expenses : List Expense) (summaryTable : List MonthlyFinancial)
    (distTable : List MemberDistribution) (period : Date)
    (retained_earnings_percentage : ℚ) : SettlementResult :=
  let s2 := settlementSummary payments ipTable expenses summaryTable
    period retained_earnings_percentage
  let summaryTable' := writeSummary s2 summaryTable
  if 0 < s2.distributable_profit then
    ⟨s2, summaryTable', (create_member_distributions members s2 distTable).2,
      (create_member_distributions members s2 distTable).1⟩
  else
    ⟨s2, summaryTable', distTable, []⟩

/- ----------------------------------------------------------------
Spec-side definitions (for the refinement claim C6), written from the
spec's words, to be compared with the aggregations above:
"`total_revenue` = sum of `amount_paid` over all payments whose
`payment_date` falls in [first_day, last_day] and whose status is
\"paid\"" and "`instructor_payments_total` = sum of `net_amount` over
InstructorPayment rows for that month with status in {approved, paid}".
---------------------------------------------------------------- -/

/-- Spec-side revenue: sum of `amount_paid` over payments whose
`payment_date` falls inside `[first, last]` and whose status is
`"paid"`. -/
def specTotalRevenue (payments : List Payment) (first last : Date) : ℚ :=
  ((payments.filter (fun p =>
      p.status == "paid" &&
      (match p.payment_date with
        | some d => Date.le first d && Date.le d last
        | none => false))).map (fun p => p.amount_paid)).sum

/-- Spec-side instructor payments total: sum of `net_amount` over the
month's rows whose status is `"approved"` or `"paid"` (pending rows
excluded). -/
def specInstructorPaymentsTotal (table : List InstructorPayment)
    (first : Date) : ℚ :=
  ((table.filter (fun r =>
      r.period_month == first &&
      (r.status == "approved" || r.status == "paid"))).map
    (fun r => r.net_amount)).sum

/- ----------------------------------------------------------------
Helper lemmas: quantization.
---------------------------------------------------------------- -/

theorem roundHalfEvenZ_intCast (n : ℤ) : roundHalfEvenZ (n : ℚ) = n := by
  norm_num [roundHalfEvenZ]

theorem is2dp_quantize2 (x : ℚ) : Is2dp (quantize2 x) :=
  ⟨roundHalfEvenZ (x * 100), rfl⟩

theorem quantize2_of_is2dp {x : ℚ} (h : Is2dp x) : quantize2 x = x := by
  obtain ⟨n, rfl⟩ := h
  unfold quantize2
  rw [div_mul_cancel₀ (n : ℚ) (by norm_num : (100 : ℚ) ≠ 0),
    roundHalfEvenZ_intCast]

theorem is2dp_zero : Is2dp 0 := ⟨0, by norm_num⟩

theorem is2dp_add {a b : ℚ} (ha : Is2dp a) (hb : Is2dp b) : Is2dp (a + b) := by
  obtain ⟨n, rfl⟩ := ha
  obtain ⟨m, rfl⟩ := hb
  exact ⟨n + m, by push_cast; ring⟩

theorem is2dp_sum {α : Type} (f : α → ℚ) :
    ∀ l : List α, (∀ x ∈ l, Is2dp (f x)) → Is2dp ((l.map f).sum)
  | [], _ => by simpa using is2dp_zero
  | x :: xs, h => by
    rw [List.map_cons, List.sum_cons]
    exact is2dp_add (h x (List.mem_cons_self x xs))
      (is2dp_sum f xs fun y hy => h y (List.mem_cons_of_mem x hy))

/- ----------------------------------------------------------------
Helper lemmas: row projections and key predicates.
---------------------------------------------------------------- -/

theorem storedRow_status (i : Instructor) (th : ℚ) (first : Date)
    (pd : Option Date) : (storedRow i th first pd).status = "pending" := rfl

theorem storedRow_payment_date (i : Instructor) (th : ℚ) (first : Date)
    (pd : Option Date) : (storedRow i th first pd).payment_date = pd := rfl

theorem pKey_true_iff (iid : Nat) (f : Date) (r : InstructorPayment) :
    pKey iid f r = true ↔ r.instructor_id = iid ∧ r.period_month = f := by
  simp [pKey]

theorem pKey_storedRow (j : Nat) (f : Date) (i : Instructor) (th : ℚ)
    (first : Date) (pd : Option Date) :
    pKey j f (storedRow i th first pd) = true ↔ i.id = j ∧ first = f := by
  simp [pKey, storedRow, savePayment, memRow, calculate_amounts]

theorem settlementSummary_instructor_payments (payments : List Payment)
    (ipTable : List InstructorPayment) (expenses : List Expense)
    (summaryTable : List MonthlyFinancial) (period : Date) (r : ℚ) :
    (settlementSummary payments ipTable expenses summaryTable period
        r).instructor_payments =
      instructorPaymentsTotal ipTable (firstDay period) := by
  unfold settlementSummary
  rcases h : summaryTable.find? (fun s => s.period_month == firstDay period)
    with _ | s <;> simp [h, calculate_totals]

theorem settlementSummary_total_revenue (payments : List Payment)
    (ipTable : List InstructorPayment) (expenses : List Expense)
    (summaryTable : List MonthlyFinancial) (period : Date) (r : ℚ) :
    (settlementSummary payments ipTable expenses summaryTable period
        r).total_revenue =
      totalRevenue payments (firstDay period) (lastDay period) := by
  unfold settlementSummary
  rcases h : summaryTable.find? (fun s => s.period_month == firstDay period)
    with _ | s <;> simp [h, calculate_totals]

theorem calculate_monthly_profit_summary (members : List Member)
    (payments : List Payment) (ipTable : List InstructorPayment)
    (expenses : List Expense) (summaryTable : List MonthlyFinancial)
    (distTable : List MemberDistribution) (period : Date) (r : ℚ) :
    (calculate_monthly_profit members payments ipTable expenses
        summaryTable distTable period r).summary =
      settlementSummary payments ipTable expenses summaryTable period r := by
  by_cases h : 0 < (settlementSummary payments ipTable expenses summaryTable
    period r).distributable_profit <;> simp [calculate_monthly_profit, h]

/- ----------------------------------------------------------------
Helper lemmas: the upsert on the `InstructorPayment` table.
---------------------------------------------------------------- -/

/-- At most one row per `(instructor, period_month)` key: the
`unique_together` constraint of `InstructorPayment` (`models.py`
line 76). -/
def KeyWF (t : List InstructorPayment) : Prop :=
  ∀ iid f, (t.filter (pKey iid f)).length ≤ 1

theorem upsertCalc_snd (i : Instructor) (th : ℚ) (first : Date) :
    ∀ t : List InstructorPayment,
      ∃ pd, (upsertCalc i th first t).2 = memRow i th first pd
  | [] => ⟨none, rfl⟩
  | r :: rs => by
    by_cases h : pKey i.id first r = true
    · exact ⟨r.payment_date, by simp [upsertCalc, h]⟩
    · obtain ⟨pd, hpd⟩ := upsertCalc_snd i th first rs
      exact ⟨pd, by simp [upsertCalc, h, hpd]⟩

theorem upsertCalc_fst_of_filter_nil (i : Instructor) (th : ℚ) (first : Date) :
    ∀ t : List InstructorPayment, t.filter (pKey i.id first) = [] →
      (upsertCalc i th first t).1 = t ++ [storedRow i th first none]
  | [], _ => rfl
  | r :: rs, h => by
    rw [List.filter_cons] at h
    by_cases hr : pKey i.id first r = true
    · rw [if_pos hr] at h
      exact absurd h (List.cons_ne_nil _ _)
    · rw [if_neg hr] at h
      simp [upsertCalc, hr, upsertCalc_fst_of_filter_nil i th first rs h]

theorem upsertCalc_filter_key_of_nil (i : Instructor) (th : ℚ) (first : Date)
    (t : List InstructorPayment) (h : t.filter (pKey i.id first) = []) :
    (upsertCalc i th first t).1.filter (pKey i.id first) =
      [storedRow i th first none] := by
  rw [upsertCalc_fst_of_filter_nil i th first t h, List.filter_append, h]
  simp [pKey_storedRow]

theorem upsertCalc_filter_key_of_cons (i : Instructor) (th : ℚ) (first : Date) :
    ∀ (t : List InstructorPayment) (r : InstructorPayment)
      (rest : List InstructorPayment),
      t.filter (pKey i.id first) = r :: rest →
      (upsertCalc i th first t).1.filter (pKey i.id first) =
        storedRow i th first r.payment_date :: rest
  | [], r, rest, h => by simp at h
  | x :: xs, r, rest, h => by
    rw [List.filter_cons] at h
    by_cases hx : pKey i.id first x = true
    · rw [if_pos hx] at h
      injection h with h1 h2
      subst h1
      have hs : pKey i.id first (storedRow i th first x.payment_date) = true :=
        (pKey_storedRow i.id first i th first x.payment_date).2 ⟨rfl, rfl⟩
      simp [upsertCalc, hx, List.filter_cons, hs, h2]
    · rw [if_neg hx] at h
      have ih := upsertCalc_filter_key_of_cons i th first xs r rest h
      simp [upsertCalc, hx, List.filter_cons, ih]

theorem upsertCalc_filter_other (i : Instructor) (th : ℚ) (first : Date)
    (j : Nat) (f : Date) (hne : ¬(i.id = j ∧ first = f)) :
    ∀ t : List InstructorPayment,
      (upsertCalc i th first t).1.filter (pKey j f) = t.filter (pKey j f)
  | [] => by
    have hs : ¬ pKey j f (storedRow i th first none) = true := by
      rw [pKey_storedRow]
      exact hne
    simp [upsertCalc, List.filter_cons, hs]
  | r :: rs => by
    by_cases hr : pKey i.id first r = true
    · have hkey := (pKey_true_iff i.id first r).1 hr
      have h1 : ¬ pKey j f r = true := by
        rw [pKey_true_iff]
        rintro ⟨a, b⟩
        exact hne ⟨hkey.1.symm.trans a, hkey.2.symm.trans b⟩
      have h2 : ¬ pKey j f (storedRow i th first r.payment_date) = true := by
        rw [pKey_storedRow]
        exact hne
      simp [upsertCalc, hr, List.filter_cons, h1, h2]
    · have ih := upsertCalc_filter_other i th first j f hne rs
      simp [upsertCalc, hr, List.filter_cons, ih]

theorem upsertCalc_fix (i : Instructor) (th : ℚ) (first : Date) :
    ∀ (t : List InstructorPayment) (pd : Option Date),
      t.filter (pKey i.id first) = [storedRow i th first pd] →
      (upsertCalc i th first t).1 = t
  | [], pd, h => by simp at h
  | x :: xs, pd, h => by
    rw [List.filter_cons] at h
    by_cases hx : pKey i.id first x = true
    · rw [if_pos hx] at h
      injection h with h1 h2
      simp only [upsertCalc, if_pos hx]
      rw [h1, storedRow_payment_date]
    · rw [if_neg hx] at h
      simp [upsertCalc, hx, upsertCalc_fix i th first xs pd h]

theorem upsertCalc_KeyWF (i : Instructor) (th : ℚ) (first : Date)
    (t : List InstructorPayment) (hwf : KeyWF t) :
    KeyWF (upsertCalc i th first t).1 := by
  intro j f
  by_cases hjf : i.id = j ∧ first = f
  · obtain ⟨h1, h2⟩ := hjf
    subst h1
    subst h2
    rcases hfil : t.filter (pKey i.id first) with _ | ⟨r, rest⟩
    · rw [upsertCalc_filter_key_of_nil i th first t hfil]
      simp
    · have hlen := hwf i.id first
      rw [hfil] at hlen
      have hrest : rest = [] := by
        simpa using List.length_eq_zero.1 (Nat.le_zero.1 (Nat.succ_le_succ_iff.1 (by simpa using hlen)))
      subst hrest
      rw [upsertCalc_filter_key_of_cons i th first t r [] hfil]
      simp
  · rw [upsertCalc_filter_other i th first j f hjf t]
    exact hwf j f

/- ----------------------------------------------------------------
Helper lemmas: the per-instructor loop.
---------------------------------------------------------------- -/

theorem runPayments_filter_preserve (asgs : List CourseInstructor)
    (first last : Date) (iid : Nat) (f : Date) :
    ∀ (is : List Instructor) (t : List InstructorPayment),
      (∀ j ∈ is, 0 < totalHours asgs j.id first last →
        ¬(j.id = iid ∧ first = f)) →
      (runPayments asgs first last is t).2.filter (pKey iid f) =
        t.filter (pKey iid f)
  | [], _, _ => rfl
  | i :: is, t, h => by
    by_cases hth : 0 < totalHours asgs i.id first last
    · simp only [runPayments, if_pos hth]
      rw [runPayments_filter_preserve asgs first last iid f is _
        (fun j hj => h j (List.mem_cons_of_mem _ hj))]
      exact upsertCalc_filter_other i _ first iid f
        (h i (List.mem_cons_self _ _) hth) t
    · simp only [runPayments, if_neg hth]
      exact runPayments_filter_preserve asgs first last iid f is t
        (fun j hj => h j (List.mem_cons_of_mem _ hj))

theorem runPayments_KeyWF (asgs : List CourseInstructor) (first last : Date) :
    ∀ (is : List Instructor) (t : List InstructorPayment), KeyWF t →
      KeyWF (runPayments asgs first last is t).2
  | [], _, hwf => hwf
  | i :: is, t, hwf => by
    by_cases hth : 0 < totalHours asgs i.id first last
    · simp only [runPayments, if_pos hth]
      exact runPayments_KeyWF asgs first last is _
        (upsertCalc_KeyWF i _ first t hwf)
    · simp only [runPayments, if_neg hth]
      exact runPayments_KeyWF asgs first last is t hwf

theorem runPayments_establishes (asgs : List CourseInstructor)
    (first last : Date) :
    ∀ (is : List Instructor) (t : List InstructorPayment),
      (is.map (fun i => i.id)).Nodup → KeyWF t →
      ∀ i ∈ is, 0 < totalHours asgs i.id first last →
        ∃ pd, (runPayments asgs first last is t).2.filter (pKey i.id first) =
          [storedRow i (totalHours asgs i.id first last) first pd]
  | [], _, _, _, i, hi, _ => absurd hi (List.not_mem_nil i)
  | j :: is, t, hnd, hwf, i, hi, hth => by
    rw [List.map_cons, List.nodup_cons] at hnd
    obtain ⟨hjid, hnd'⟩ := hnd
    rcases List.mem_cons.1 hi with rfl | hi'
    · simp only [runPayments, if_pos hth]
      have hafter : ∃ pd,
          ((upsertCalc i (totalHours asgs i.id first last) first t).1.filter
            (pKey i.id first)) =
          [storedRow i (totalHours asgs i.id first last) first pd] := by
        rcases hfil : t.filter (pKey i.id first) with _ | ⟨r, rest⟩
        · exact ⟨none, upsertCalc_filter_key_of_nil i _ first t hfil⟩
        · have hlen := hwf i.id first
          rw [hfil] at hlen
          have hrest : rest = [] := by
            simpa using List.length_eq_zero.1
              (Nat.le_zero.1 (Nat.succ_le_succ_iff.1 (by simpa using hlen)))
          subst hrest
          exact ⟨r.payment_date,
            upsertCalc_filter_key_of_cons i _ first t r [] hfil⟩
      obtain ⟨pd, hpd⟩ := hafter
      refine ⟨pd, ?_⟩
      rw [runPayments_filter_preserve asgs first last i.id first is _ ?_]
      · exact hpd
      · rintro j' hj' _ ⟨he, _⟩
        exact hjid (List.mem_map.2 ⟨j', hj', he⟩)
    · by_cases hthj : 0 < totalHours asgs j.id first last
      · simp only [runPayments, if_pos hthj]
        exact runPayments_establishes asgs first last is _ hnd'
          (upsertCalc_KeyWF j _ first t hwf) i hi' hth
      · simp only [runPayments, if_neg hthj]
        exact runPayments_establishes asgs first last is t hnd' hwf i hi' hth

theorem runPayments_fixed (asgs : List CourseInstructor) (first last : Date) :
    ∀ (is : List Instructor) (t : List InstructorPayment),
      (∀ i ∈ is, 0 < totalHours asgs i.id first last →
        ∃ pd, t.filter (pKey i.id first) =
          [storedRow i (totalHours asgs i.id first last) first pd]) →
      (runPayments asgs first last is t).2 = t
  | [], _, _ => rfl
  | i :: is, t, h => by
    by_cases hth : 0 < totalHours asgs i.id first last
    · obtain ⟨pd, hpd⟩ := h i (List.mem_cons_self _ _) hth
      have hfix := upsertCalc_fix i (totalHours asgs i.id first last) first t pd hpd
      simp only [runPayments, if_pos hth, hfix]
      exact runPayments_fixed asgs first last is t
        (fun j hj => h j (List.mem_cons_of_mem _ hj))
    · simp only [runPayments, if_neg hth]
      exact runPayments_fixed asgs first last is t
        (fun j hj => h j (List.mem_cons_of_mem _ hj))

theorem runPayments_skip_all (asgs : List CourseInstructor)
    (first last : Date) :
    ∀ (is : List Instructor) (t : List InstructorPayment),
      (∀ i ∈ is, ¬ 0 < totalHours asgs i.id first last) →
      runPayments asgs first last is t = ([], t)
  | [], _, _ => rfl
  | i :: is, t, h => by
    simp only [runPayments, if_neg (h i (List.mem_cons_self _ _))]
    exact runPayments_skip_all asgs first last is t
      (fun j hj => h j (List.mem_cons_of_mem _ hj))

theorem mem_runPayments_fst (asgs : List CourseInstructor)
    (first last : Date) :
    ∀ (is : List Instructor) (t : List InstructorPayment)
      (p : InstructorPayment), p ∈ (runPayments asgs first last is t).1 →
      ∃ i ∈ is, ∃ pd, 0 < totalHours asgs i.id first last ∧
        p = memRow i (totalHours asgs i.id first last) first pd
  | [], _, p, hp => absurd hp (List.not_mem_nil p)
  | i :: is, t, p, hp => by
    by_cases hth : 0 < totalHours asgs i.id first last
    · simp only [runPayments, if_pos hth] at hp
      rcases List.mem_cons.1 hp with rfl | hp'
      · obtain ⟨pd, hpd⟩ := upsertCalc_snd i (totalHours asgs i.id first last) first t
        exact ⟨i, List.mem_cons_self _ _, pd, hth, hpd⟩
      · obtain ⟨i', hi', pd, hth', hp''⟩ := mem_runPayments_fst asgs first last is _ p hp'
        exact ⟨i', List.mem_cons_of_mem _ hi', pd, hth', hp''⟩
    · simp only [runPayments, if_neg hth] at hp
      obtain ⟨i', hi', pd, hth', hp''⟩ := mem_runPayments_fst asgs first last is t p hp
      exact ⟨i', List.mem_cons_of_mem _ hi', pd, hth', hp''⟩

/- ----------------------------------------------------------------
Helper lemmas: the allocator loop and the settlement summary fields.
---------------------------------------------------------------- -/

theorem upsertDist_snd (m : Member) (dp : ℚ) (period : Date) :
    ∀ t : List MemberDistribution,
      ∃ pd, (upsertDist m dp period t).2 = distRow m dp period pd
  | [] => ⟨none, rfl⟩
  | r :: rs => by
    by_cases h : dKey m.id period r = true
    · exact ⟨r.payment_date, by simp [upsertDist, h]⟩
    · obtain ⟨pd, hpd⟩ := upsertDist_snd m dp period rs
      exact ⟨pd, by simp [upsertDist, h, hpd]⟩

theorem mem_runDistributions_fst (dp : ℚ) (period : Date) :
    ∀ (ms : List Member) (t : List MemberDistribution) (m : Member),
      m ∈ ms → ∃ pd, distRow m dp period pd ∈
        (runDistributions dp period ms t).1
  | [], _, m, hm => absurd hm (List.not_mem_nil m)
  | m0 :: ms, t, m, hm => by
    rcases List.mem_cons.1 hm with rfl | hm'
    · obtain ⟨pd, hpd⟩ := upsertDist_snd m dp period t
      exact ⟨pd, by simp [runDistributions, hpd]⟩
    · obtain ⟨pd, hpd⟩ := mem_runDistributions_fst dp period ms
        (upsertDist m0 dp period t).1 m hm'
      exact ⟨pd, by simp [runDistributions, hpd]⟩

theorem mem_create_member_distributions (members : List Member)
    (summary : MonthlyFinancial) (table : List MemberDistribution)
    (m : Member) (hm : m ∈ members) (hact : m.status = "active")
    (hts : ((members.filter (fun x => x.status == "active")).map
      (fun x => x.share_percentage)).sum ≠ 0) :
    ∃ pd, distRow m summary.distributable_profit summary.period_month pd ∈
      (create_member_distributions members summary table).1 := by
  unfold create_member_distributions
  rw [if_neg (by simpa using hts)]
  exact mem_runDistributions_fst summary.distributable_profit
    summary.period_month (members.filter (fun x => x.status == "active"))
    table m (List.mem_filter.2 ⟨hm, by simp [hact]⟩)

theorem settlementSummary_fields (payments : List Payment)
    (ipTable : List InstructorPayment) (expenses : List Expense)
    (summaryTable : List MonthlyFinancial) (period : Date) (r : ℚ) :
    (settlementSummary payments ipTable expenses summaryTable period
        r).total_expenses =
      (settlementSummary payments ipTable expenses summaryTable period
        r).instructor_payments +
      (settlementSummary payments ipTable expenses summaryTable period
        r).operational_expenses +
      (settlementSummary payments ipTable expenses summaryTable period
        r).other_expenses ∧
    (settlementSummary payments ipTable expenses summaryTable period
        r).gross_profit =
      (settlementSummary payments ipTable expenses summaryTable period
        r).total_revenue -
      (settlementSummary payments ipTable expenses summaryTable period
        r).total_expenses ∧
    (settlementSummary payments ipTable expenses summaryTable period
        r).retained_earnings =
      (settlementSummary payments ipTable expenses summaryTable period
        r).gross_profit * (r / 100) ∧
    (settlementSummary payments ipTable expenses summaryTable period
        r).distributable_profit =
      (settlementSummary payments ipTable expenses summaryTable period
        r).gross_profit -
      (settlementSummary payments ipTable expenses summaryTable period
        r).retained_earnings := by
  unfold settlementSummary
  rcases h : summaryTable.find? (fun s => s.period_month == firstDay period)
    with _ | s <;> simp [h, calculate_totals]

/- ----------------------------------------------------------------
Concrete fixtures used by the claims' worked examples.
---------------------------------------------------------------- -/

/-- Example instructor: rate 150.00/hour, tax rate 10%. -/
def exInstructor : Instructor := ⟨1, "active", 150, 10⟩

/-- Example course overlapping January 2025. -/
def exCourse : Course := ⟨⟨2025, 1, 10⟩, ⟨2025, 3, 20⟩⟩

/-- Example assignment: instructor 1 taught 40 hours. -/
def exAssignment : CourseInstructor := ⟨1, exCourse, 40⟩

/-- Example period: any date inside January 2025. -/
def exPeriod : Date := ⟨2025, 1, 15⟩

/-- The payment instance the calculator produces for the example. -/
def exComputedPayment : InstructorPayment :=
  ⟨1, ⟨2025, 1, 1⟩, 40, 150, 6000, 600, 5400, "pending", none⟩

/-- Example paid student payment of 100000 inside January 2025. -/
def exStudentPayment : Payment := ⟨100000, some ⟨2025, 1, 20⟩, "paid"⟩

/-- Example approved instructor payment with net 30000 for January 2025. -/
def exApprovedPayment : InstructorPayment :=
  ⟨1, ⟨2025, 1, 1⟩, 200, 150, 30000, 0, 30000, "approved", none⟩

/-- Example paid operational expense of 10000 for January 2025. -/
def exExpense : Expense := ⟨10000, ⟨2025, 1, 1⟩, "paid"⟩

/-- Example summary with distributable profit 48000. -/
def exSummary48 : MonthlyFinancial :=
  ⟨⟨2025, 1, 1⟩, 100000, 30000, 10000, 0, 40000, 60000, 12000, 48000, false⟩

/-- Example member with a 15% share. -/
def exMember15 : Member := ⟨1, "active", "private", 15⟩

/-- Co-member bringing the active share total to 40. -/
def exCoMemberA : Member := ⟨2, "active", "private", 25⟩

/-- Co-members bringing the active share total to 100. -/
def exCoMemberB1 : Member := ⟨2, "active", "private", 60⟩

/-- Second co-member of the total-100 configuration. -/
def exCoMemberB2 : Member := ⟨3, "active", "private", 25⟩

/-- Example active member who is a public employee. -/
def exPublicMember : Member := ⟨2, "active", "public", 25⟩

/- ----------------------------------------------------------------
Claims.
---------------------------------------------------------------- -/

/-- C1: for every summary with positive distributable profit and every
active member the allocator processes, the distribution amount equals
`distributable_profit * share_percentage / 100`, using the member's raw
percentage, not normalized by the computed total of shares; in
particular share 15 against distributable profit 48000 yields a stored
amount of 7200.00 whether the active members' percentages sum to 40 or
to 100. -/
theorem C1_distribution_amount_unnormalized (members : List Member)
    (summary : MonthlyFinancial) (table : List MemberDistribution)
    (m : Member) (_hdp : 0 < summary.distributable_profit)
    (hm : m ∈ members) (hact : m.status = "active")
    (hts : ((members.filter (fun x => x.status == "active")).map
      (fun x => x.share_percentage)).sum ≠ 0) :
    (∃ d ∈ (create_member_distributions members summary table).1,
      d.member_id = m.id ∧ d.share_percentage = m.share_percentage ∧
      d.amount = summary.distributable_profit * m.share_percentage / 100) ∧
    ((create_member_distributions [exMember15, exCoMemberA] exSummary48
        []).2.map (fun d => (d.member_id, d.amount))) =
      [(1, 7200), (2, 12000)] ∧
    ((create_member_distributions [exMember15, exCoMemberB1, exCoMemberB2]
        exSummary48 []).2.map (fun d => (d.member_id, d.amount))) =
      [(1, 7200), (2, 28800), (3, 12000)] := by
  refine ⟨?_, ?_, ?_⟩
  · obtain ⟨pd, hpd⟩ :=
      mem_create_member_distributions members summary table m hm hact hts
    exact ⟨distRow m summary.distributable_profit summary.period_month pd,
      hpd, rfl, rfl, rfl⟩
  · norm_num [create_member_distributions, runDistributions, upsertDist,
      distRow, saveDistribution, Member.can_receive_profit, dKey,
      exMember15, exCoMemberA, exSummary48, quantize2, roundHalfEvenZ]
  · norm_num [create_member_distributions, runDistributions, upsertDist,
      distRow, saveDistribution, Member.can_receive_profit, dKey,
      exMember15, exCoMemberB1, exCoMemberB2, exSummary48, quantize2,
      roundHalfEvenZ]

/-- C1 witness: the theorem applied to the share-15 member of the
total-40 configuration. -/
theorem C1_distribution_amount_unnormalized_witness :
    ∃ d ∈ (create_member_distributions [exMember15, exCoMemberA]
      exSummary48 []).1,
      d.member_id = exMember15.id ∧
      d.share_percentage = exMember15.share_percentage ∧
      d.amount = exSummary48.distributable_profit *
        exMember15.share_percentage / 100 :=
  (C1_distribution_amount_unnormalized [exMember15, exCoMemberA]
    exSummary48 [] exMember15 (by norm_num [exSummary48])
    (by simp) rfl
    (by norm_num [exMember15, exCoMemberA])).1

/-- C2: every payment instance the calculator produces satisfies
`gross = total_hours * hourly_rate`,
`tax = gross * (instructor.tax_rate_percentage / 100)` and
`net = gross - tax`, the rate snapshotted from its active instructor;
in particular 40 hours at 150.00 with tax rate 10% yield gross 6000.00,
tax 600.00 and net 5400.00. -/
theorem C2_instructor_payment_amounts (instructors : List Instructor)
    (asgs : List CourseInstructor) (period : Date)
    (table : List InstructorPayment) (p : InstructorPayment)
    (hp : p ∈ (calculate_instructor_payments instructors asgs period
      table).1) :
    (p.gross_amount = p.total_hours * p.hourly_rate ∧
      p.net_amount = p.gross_amount - p.tax_amount ∧
      ∃ i ∈ instructors, i.status = "active" ∧ p.instructor_id = i.id ∧
        p.hourly_rate = i.hourly_rate ∧
        p.tax_amount = p.gross_amount * (i.tax_rate_percentage / 100)) ∧
    ((calculate_instructor_payments [exInstructor] [exAssignment] exPeriod
        []).1.map (fun q => (q.gross_amount, q.tax_amount, q.net_amount))) =
      [(6000, 600, 5400)] := by
  constructor
  · unfold calculate_instructor_payments at hp
    obtain ⟨i, hi, pd, hth, rfl⟩ :=
      mem_runPayments_fst asgs (firstDay period) (lastDay period) _ table p hp
    obtain ⟨hmem, hstat⟩ := List.mem_filter.1 hi
    refine ⟨rfl, rfl, i, hmem, by simpa using hstat, rfl, rfl, rfl⟩
  · norm_num [calculate_instructor_payments, runPayments, upsertCalc,
      memRow, storedRow, savePayment, calculate_amounts, totalHours, pKey,
      firstDay, lastDay, dayBeforeFirst, daysInMonth, isLeap, Date.le,
      exInstructor, exCourse, exAssignment, exPeriod, quantize2,
      roundHalfEvenZ]

/-- C2 witness: the theorem applied to the payment produced by the
40-hour example run. -/
theorem C2_instructor_payment_amounts_witness :
    (exComputedPayment.gross_amount =
        exComputedPayment.total_hours * exComputedPayment.hourly_rate ∧
      exComputedPayment.net_amount =
        exComputedPayment.gross_amount - exComputedPayment.tax_amount ∧
      ∃ i ∈ [exInstructor], i.status = "active" ∧
        exComputedPayment.instructor_id = i.id ∧
        exComputedPayment.hourly_rate = i.hourly_rate ∧
        exComputedPayment.tax_amount =
          exComputedPayment.gross_amount * (i.tax_rate_percentage / 100)) ∧
    ((calculate_instructor_payments [exInstructor] [exAssignment] exPeriod
        []).1.map (fun q => (q.gross_amount, q.tax_amount, q.net_amount))) =
      [(6000, 600, 5400)] :=
  C2_instructor_payment_amounts [exInstructor] [exAssignment] exPeriod []
    exComputedPayment
    (by norm_num [calculate_instructor_payments, runPayments, upsertCalc,
      memRow, storedRow, savePayment, calculate_amounts, totalHours, pKey,
      firstDay, lastDay, dayBeforeFirst, daysInMonth, isLeap, Date.le,
      exInstructor, exCourse, exAssignment, exPeriod, exComputedPayment,
      quantize2, roundHalfEvenZ])

/-- C3: the upserted summary satisfies
`total_expenses = instructor_payments + operational_expenses +
other_expenses`, `gross_profit = total_revenue - total_expenses` with
no floor at zero, `retained_earnings = gross_profit * r / 100` and
`distributable_profit = gross_profit - retained_earnings`; revenue
100000, instructor payments 30000, operational 10000, other 0, r = 20
give 40000/60000/12000/48000, and with no revenue the gross profit is
stored negative. -/
theorem C3_monthly_profit_totals (members : List Member)
    (payments : List Payment) (ipTable : List InstructorPayment)
    (expenses : List Expense) (summaryTable : List MonthlyFinancial)
    (distTable : List MemberDistribution) (period : Date) (r : ℚ) :
    ((calculate_monthly_profit members payments ipTable expenses
        summaryTable distTable period r).summary.total_expenses =
      (calculate_monthly_profit members payments ipTable expenses
        summaryTable distTable period r).summary.instructor_payments +
      (calculate_monthly_profit members payments ipTable expenses
        summaryTable distTable period r).summary.operational_expenses +
      (calculate_monthly_profit members payments ipTable expenses
        summaryTable distTable period r).summary.other_expenses ∧
    (calculate_monthly_profit members payments ipTable expenses
        summaryTable distTable period r).summary.gross_profit =
      (calculate_monthly_profit members payments ipTable expenses
        summaryTable distTable period r).summary.total_revenue -
      (calculate_monthly_profit members payments ipTable expenses
        summaryTable distTable period r).summary.total_expenses ∧
    (calculate_monthly_profit members payments ipTable expenses
        summaryTable distTable period r).summary.retained_earnings =
      (calculate_monthly_profit members payments ipTable expenses
        summaryTable distTable period r).summary.gross_profit * (r / 100) ∧
    (calculate_monthly_profit members payments ipTable expenses
        summaryTable distTable period r).summary.distributable_profit =
      (calculate_monthly_profit members payments ipTable expenses
        summaryTable distTable period r).summary.gross_profit -
      (calculate_monthly_profit members payments ipTable expenses
        summaryTable distTable period r).summary.retained_earnings) ∧
    (calculate_monthly_profit [] [exStudentPayment] [exApprovedPayment]
        [exExpense] [] [] exPeriod 20).summary =
      ⟨⟨2025, 1, 1⟩, 100000, 30000, 10000, 0, 40000, 60000, 12000, 48000,
        false⟩ ∧
    (calculate_monthly_profit [] [] [] [exExpense] [] [] exPeriod
        20).summary.gross_profit = -10000 := by
  refine ⟨?_, ?_, ?_⟩
  · rw [calculate_monthly_profit_summary]
    exact settlementSummary_fields payments ipTable expenses summaryTable
      period r
  · norm_num [calculate_monthly_profit, settlementSummary, totalRevenue,
      instructorPaymentsTotal, operationalExpenses, calculate_totals,
      writeSummary, saveSummary, create_member_distributions,
      runDistributions, upsertDist, distRow, saveDistribution,
      Member.can_receive_profit, dKey, firstDay, lastDay, dayBeforeFirst,
      daysInMonth, isLeap, Date.le, exStudentPayment, exApprovedPayment,
      exExpense, exPeriod, quantize2, roundHalfEvenZ]
  · norm_num [calculate_monthly_profit, settlementSummary, totalRevenue,
      instructorPaymentsTotal, operationalExpenses, calculate_totals,
      writeSummary, saveSummary, create_member_distributions,
      runDistributions, upsertDist, distRow, saveDistribution,
      Member.can_receive_profit, dKey, firstDay, lastDay, dayBeforeFirst,
      daysInMonth, isLeap, Date.le, exExpense, exPeriod, quantize2,
      roundHalfEvenZ]

/-- C5: every decimal field a save writes — the payment's hours, rate,
gross, tax and net, the summary's money fields including retained and
distributable profit, and the distribution's share and amount — is
quantized to at most two decimal places at the store boundary, for
every input value. -/
theorem C5_stored_amounts_two_decimals (p : InstructorPayment)
    (s : MonthlyFinancial) (d : MemberDistribution) :
    (Is2dp (savePayment p).gross_amount ∧
      Is2dp (savePayment p).tax_amount ∧
      Is2dp (savePayment p).net_amount ∧
      Is2dp (savePayment p).total_hours ∧
      Is2dp (savePayment p).hourly_rate) ∧
    (Is2dp (saveSummary s).retained_earnings ∧
      Is2dp (saveSummary s).distributable_profit ∧
      Is2dp (saveSummary s).total_revenue ∧
      Is2dp (saveSummary s).instructor_payments ∧
      Is2dp (saveSummary s).operational_expenses ∧
      Is2dp (saveSummary s).other_expenses ∧
      Is2dp (saveSummary s).total_expenses ∧
      Is2dp (saveSummary s).gross_profit) ∧
    (Is2dp (saveDistribution d).amount ∧
      Is2dp (saveDistribution d).share_percentage) :=
  ⟨⟨is2dp_quantize2 _, is2dp_quantize2 _, is2dp_quantize2 _,
      is2dp_quantize2 _, is2dp_quantize2 _⟩,
    ⟨is2dp_quantize2 _, is2dp_quantize2 _, is2dp_quantize2 _,
      is2dp_quantize2 _, is2dp_quantize2 _, is2dp_quantize2 _,
      is2dp_quantize2 _, is2dp_quantize2 _⟩,
    ⟨is2dp_quantize2 _, is2dp_quantize2 _⟩⟩

/-- C7: when the computed distributable profit is not strictly
positive, the run touches no distribution row and returns no
distributions; and for a retention percentage between 0 and 100, a
non-positive gross profit forces a non-positive distributable
profit. -/
theorem C7_nonpositive_profit_skips_distribution (members : List Member)
    (payments : List Payment) (ipTable : List InstructorPayment)
    (expenses : List Expense) (summaryTable : List MonthlyFinancial)
    (distTable : List MemberDistribution) (period : Date) (r : ℚ) :
    ((calculate_monthly_profit members payments ipTable expenses
        summaryTable distTable period r).summary.distributable_profit ≤ 0 →
      (calculate_monthly_profit members payments ipTable expenses
        summaryTable distTable period r).distTable = distTable ∧
      (calculate_monthly_profit members payments ipTable expenses
        summaryTable distTable period r).distributions = []) ∧
    (0 ≤ r → r ≤ 100 →
      (calculate_monthly_profit members payments ipTable expenses
        summaryTable distTable period r).summary.gross_profit ≤ 0 →
      (calculate_monthly_profit members payments ipTable expenses
        summaryTable distTable period r).summary.distributable_profit ≤ 0) := by
  constructor
  · intro h
    rw [calculate_monthly_profit_summary] at h
    constructor <;> simp [calculate_monthly_profit, not_lt.2 h]
  · intro hr0 hr100 hg
    rw [calculate_monthly_profit_summary] at hg ⊢
    obtain ⟨hte, hgp, hret, hdp⟩ :=
      settlementSummary_fields payments ipTable expenses summaryTable
        period r
    rw [hdp, hret]
    have heq : (settlementSummary payments ipTable expenses summaryTable
          period r).gross_profit -
        (settlementSummary payments ipTable expenses summaryTable period
          r).gross_profit * (r / 100) =
        (settlementSummary payments ipTable expenses summaryTable period
          r).gross_profit * ((100 - r) / 100) := by
      ring
    rw [heq]
    exact mul_nonpos_iff.2 (Or.inr ⟨hg,
      div_nonneg (by linarith) (by norm_num)⟩)

/-- C7 witness: a run with no revenue and a paid expense of 10000 has
non-positive distributable profit, leaves the distribution table
untouched and returns no distributions. -/
theorem C7_nonpositive_profit_skips_distribution_witness :
    (calculate_monthly_profit [] [] [] [exExpense] [] [] exPeriod
        20).distTable = [] ∧
    (calculate_monthly_profit [] [] [] [exExpense] [] [] exPeriod
        20).distributions = [] ∧
    (calculate_monthly_profit [] [] [] [exExpense] [] [] exPeriod
        20).summary.distributable_profit ≤ 0 := by
  have h := C7_nonpositive_profit_skips_distribution [] [] [] [exExpense]
    [] [] exPeriod 20
  have hg : (calculate_monthly_profit [] [] [] [exExpense] [] [] exPeriod
      20).summary.gross_profit ≤ 0 := by
    norm_num [calculate_monthly_profit, settlementSummary, totalRevenue,
      instructorPaymentsTotal, operationalExpenses, calculate_totals,
      writeSummary, saveSummary, create_member_distributions,
      runDistributions, upsertDist, distRow, saveDistribution,
      Member.can_receive_profit, dKey, firstDay, lastDay, dayBeforeFirst,
      daysInMonth, isLeap, Date.le, exExpense, exPeriod, quantize2,
      roundHalfEvenZ]
  have hdp := h.2 (by norm_num) (by norm_num) hg
  exact ⟨(h.1 hdp).1, (h.1 hdp).2, hdp⟩

/-- C8: an active member employed in the public sector always receives
status `"cancelled"` in their distribution row, regardless of share
percentage, with `is_public_employee` snapshotted `true`, while the
amount is still computed and stored. -/
theorem C8_public_employee_distribution_cancelled (members : List Member)
    (summary : MonthlyFinancial) (table : List MemberDistribution)
    (m : Member) (hm : m ∈ members) (hact : m.status = "active")
    (hpub : m.employment_status = "public")
    (hts : ((members.filter (fun x => x.status == "active")).map
      (fun x => x.share_percentage)).sum ≠ 0) :
    ∃ d ∈ (create_member_distributions members summary table).1,
      d.member_id = m.id ∧ d.status = "cancelled" ∧
      d.is_public_employee = true ∧
      d.amount = summary.distributable_profit * m.share_percentage / 100 ∧
      (saveDistribution d).status = "cancelled" ∧
      (saveDistribution d).is_public_employee = true ∧
      (saveDistribution d).amount =
        quantize2 (summary.distributable_profit * m.share_percentage /
          100) := by
  obtain ⟨pd, hpd⟩ :=
    mem_create_member_distributions members summary table m hm hact hts
  refine ⟨distRow m summary.distributable_profit summary.period_month pd,
    hpd, rfl, ?_, ?_, rfl, ?_, ?_, rfl⟩
  · simp [distRow, Member.can_receive_profit, hpub]
  · simp [distRow, hpub]
  · simp [saveDistribution, distRow, Member.can_receive_profit, hpub]
  · simp [saveDistribution, distRow, hpub]

/-- C8 witness: the theorem applied to the active public-employee
member with a 25% share. -/
theorem C8_public_employee_distribution_cancelled_witness :
    ∃ d ∈ (create_member_distributions [exMember15, exPublicMember]
      exSummary48 []).1,
      d.member_id = exPublicMember.id ∧ d.status = "cancelled" ∧
      d.is_public_employee = true ∧
      d.amount = exSummary48.distributable_profit *
        exPublicMember.share_percentage / 100 ∧
      (saveDistribution d).status = "cancelled" ∧
      (saveDistribution d).is_public_employee = true ∧
      (saveDistribution d).amount =
        quantize2 (exSummary48.distributable_profit *
          exPublicMember.share_percentage / 100) :=
  C8_public_employee_distribution_cancelled [exMember15, exPublicMember]
    exSummary48 [] exPublicMember (by simp) rfl rfl
    (by norm_num [exMember15, exPublicMember])

theorem filter_ext {α : Type} (p q : α → Bool) (h : ∀ a, p a = q a) :
    ∀ l : List α, l.filter p = l.filter q
  | [] => rfl
  | a :: l => by
    rw [List.filter_cons, List.filter_cons, h a,
      filter_ext p q h l]

/-- C6: the stored `total_revenue` is the sum of `amount_paid` over
payments that are `"paid"` with a payment date inside the month window,
and the stored `instructor_payments` is the sum of `net_amount` over
the month's rows with status `"approved"` or `"paid"` — a `"pending"`
row contributes nothing. -/
theorem C6_revenue_and_instructor_payment_aggregation
    (members : List Member) (payments : List Payment)
    (ipTable : List InstructorPayment) (expenses : List Expense)
    (summaryTable : List MonthlyFinancial)
    (distTable : List MemberDistribution) (period : Date) (r : ℚ)
    (hpay : ∀ p ∈ payments, Is2dp p.amount_paid)
    (hip : ∀ q ∈ ipTable, Is2dp q.net_amount) :
    (calculate_monthly_profit members payments ipTable expenses
        summaryTable distTable period r).summary.total_revenue =
      specTotalRevenue payments (firstDay period) (lastDay period) ∧
    (calculate_monthly_profit members payments ipTable expenses
        summaryTable distTable period r).summary.instructor_payments =
      specInstructorPaymentsTotal ipTable (firstDay period) ∧
    (saveSummary (calculate_monthly_profit members payments ipTable
        expenses summaryTable distTable period r).summary).total_revenue =
      specTotalRevenue payments (firstDay period) (lastDay period) ∧
    (saveSummary (calculate_monthly_profit members payments ipTable
        expenses summaryTable distTable period
        r).summary).instructor_payments =
      specInstructorPaymentsTotal ipTable (firstDay period) ∧
    (∀ q : InstructorPayment, q.status = "pending" →
      specInstructorPaymentsTotal (q :: ipTable) (firstDay period) =
        specInstructorPaymentsTotal ipTable (firstDay period)) := by
  have hrev : totalRevenue payments (firstDay period) (lastDay period) =
      specTotalRevenue payments (firstDay period) (lastDay period) := by
    unfold totalRevenue specTotalRevenue
    rw [filter_ext _ _ (fun p => Bool.and_comm _ _) payments]
  have hipt : instructorPaymentsTotal ipTable (firstDay period) =
      specInstructorPaymentsTotal ipTable (firstDay period) := rfl
  have h1 : (calculate_monthly_profit members payments ipTable expenses
      summaryTable distTable period r).summary.total_revenue =
      specTotalRevenue payments (firstDay period) (lastDay period) := by
    rw [calculate_monthly_profit_summary, settlementSummary_total_revenue,
      hrev]
  have h2 : (calculate_monthly_profit members payments ipTable expenses
      summaryTable distTable period r).summary.instructor_payments =
      specInstructorPaymentsTotal ipTable (firstDay period) := by
    rw [calculate_monthly_profit_summary,
      settlementSummary_instructor_payments, hipt]
  refine ⟨h1, h2, ?_, ?_, ?_⟩
  · show quantize2 (calculate_monthly_profit members payments ipTable
      expenses summaryTable distTable period r).summary.total_revenue = _
    rw [h1]
    refine quantize2_of_is2dp (is2dp_sum _ _ ?_)
    intro p hp
    exact hpay p (List.mem_of_mem_filter hp)
  · show quantize2 (calculate_monthly_profit members payments ipTable
      expenses summaryTable distTable period
      r).summary.instructor_payments = _
    rw [h2]
    refine quantize2_of_is2dp (is2dp_sum _ _ ?_)
    intro q hq
    exact hip q (List.mem_of_mem_filter hq)
  · intro q hq
    unfold specInstructorPaymentsTotal
    rw [List.filter_cons]
    simp [hq]

/-- C6 witness: the theorem applied to the January 2025 fixtures. -/
theorem C6_revenue_and_instructor_payment_aggregation_witness :
    (calculate_monthly_profit [] [exStudentPayment] [exApprovedPayment]
        [exExpense] [] [] exPeriod 20).summary.total_revenue =
      specTotalRevenue [exStudentPayment] (firstDay exPeriod)
        (lastDay exPeriod) ∧
    (calculate_monthly_profit [] [exStudentPayment] [exApprovedPayment]
        [exExpense] [] [] exPeriod 20).summary.instructor_payments =
      specInstructorPaymentsTotal [exApprovedPayment] (firstDay exPeriod) ∧
    (saveSummary (calculate_monthly_profit [] [exStudentPayment]
        [exApprovedPayment] [exExpense] [] [] exPeriod
        20).summary).total_revenue =
      specTotalRevenue [exStudentPayment] (firstDay exPeriod)
        (lastDay exPeriod) ∧
    (saveSummary (calculate_monthly_profit [] [exStudentPayment]
        [exApprovedPayment] [exExpense] [] [] exPeriod
        20).summary).instructor_payments =
      specInstructorPaymentsTotal [exApprovedPayment] (firstDay exPeriod) ∧
    (∀ q : InstructorPayment, q.status = "pending" →
      specInstructorPaymentsTotal (q :: [exApprovedPayment])
        (firstDay exPeriod) =
        specInstructorPaymentsTotal [exApprovedPayment]
          (firstDay exPeriod)) :=
  C6_revenue_and_instructor_payment_aggregation [] [exStudentPayment]
    [exApprovedPayment] [exExpense] [] [] exPeriod 20
    (by
      intro p hp
      rw [List.mem_singleton.1 hp]
      exact ⟨10000000, by norm_num [exStudentPayment]⟩)
    (by
      intro q hq
      rw [List.mem_singleton.1 hq]
      exact ⟨3000000, by norm_num [exApprovedPayment]⟩)

/-- C4: with unchanged instructor, course and assignment inputs, a
second run of the payment calculator reproduces the table of the first
run row for row, and each processed instructor has exactly one row for
the month — the upsert updates in place rather than appending. -/
theorem C4_instructor_payments_idempotent (instructors : List Instructor)
    (asgs : List CourseInstructor) (period : Date)
    (table : List InstructorPayment)
    (hids : (instructors.map (fun i => i.id)).Nodup)
    (hwf : KeyWF table) :
    (calculate_instructor_payments instructors asgs period
        (calculate_instructor_payments instructors asgs period table).2).2 =
      (calculate_instructor_payments instructors asgs period table).2 ∧
    ∀ i ∈ instructors, i.status = "active" →
      0 < totalHours asgs i.id (firstDay period) (lastDay period) →
      ((calculate_instructor_payments instructors asgs period
        table).2.filter (pKey i.id (firstDay period))).length = 1 := by
  have hnd' : (((instructors.filter (fun i => i.status == "active")).map
      (fun i => i.id))).Nodup :=
    hids.sublist ((List.filter_sublist instructors).map _)
  constructor
  · unfold calculate_instructor_payments
    apply runPayments_fixed
    intro i hi hth
    exact runPayments_establishes asgs (firstDay period) (lastDay period)
      (instructors.filter (fun i => i.status == "active")) table hnd' hwf
      i hi hth
  · intro i hi hact hth
    have hif : i ∈ instructors.filter (fun i => i.status == "active") :=
      List.mem_filter.2 ⟨hi, by simp [hact]⟩
    obtain ⟨pd, hpd⟩ := runPayments_establishes asgs (firstDay period)
      (lastDay period) (instructors.filter (fun i => i.status == "active"))
      table hnd' hwf i hif hth
    unfold calculate_instructor_payments
    rw [hpd]
    rfl

/-- C4 witness: the theorem applied to the 40-hour January 2025
fixture starting from an empty table. -/
theorem C4_instructor_payments_idempotent_witness :
    (calculate_instructor_payments [exInstructor] [exAssignment] exPeriod
        (calculate_instructor_payments [exInstructor] [exAssignment]
          exPeriod []).2).2 =
      (calculate_instructor_payments [exInstructor] [exAssignment]
        exPeriod []).2 ∧
    ∀ i ∈ [exInstructor], i.status = "active" →
      0 < totalHours [exAssignment] i.id (firstDay exPeriod)
        (lastDay exPeriod) →
      ((calculate_instructor_payments [exInstructor] [exAssignment]
        exPeriod []).2.filter (pKey i.id (firstDay exPeriod))).length = 1 :=
  C4_instructor_payments_idempotent [exInstructor] [exAssignment] exPeriod
    [] (by simp) (by intro iid f; simp)

/-- C9: an active instructor whose summed hours over the month are zero
gets no row created or updated, and when every active instructor has
zero hours — or there are no active instructors — the call returns an
empty list and leaves the table untouched. -/
theorem C9_zero_hours_no_record (instructors : List Instructor)
    (asgs : List CourseInstructor) (period : Date)
    (table : List InstructorPayment) :
    (∀ i ∈ instructors, i.status = "active" →
      totalHours asgs i.id (firstDay period) (lastDay period) = 0 →
      ((calculate_instructor_payments instructors asgs period
        table).2.filter (pKey i.id (firstDay period))) =
        table.filter (pKey i.id (firstDay period))) ∧
    ((∀ i ∈ instructors, i.status = "active" →
        totalHours asgs i.id (firstDay period) (lastDay period) = 0) →
      calculate_instructor_payments instructors asgs period table =
        ([], table)) := by
  constructor
  · intro i hi hact hz
    unfold calculate_instructor_payments
    apply runPayments_filter_preserve
    rintro j hj hth ⟨hje, -⟩
    rw [hje, hz] at hth
    exact lt_irrefl 0 hth
  · intro h
    unfold calculate_instructor_payments
    apply runPayments_skip_all
    intro i hi
    obtain ⟨him, hstat⟩ := List.mem_filter.1 hi
    rw [h i him (by simpa using hstat)]
    exact lt_irrefl 0

/-- C9 witness: the theorem applied to an active instructor with no
assignments at all, over a table that already holds an approved row. -/
theorem C9_zero_hours_no_record_witness :
    ((calculate_instructor_payments [exInstructor] [] exPeriod
        [exApprovedPayment]).2.filter
        (pKey exInstructor.id (firstDay exPeriod))) =
      [exApprovedPayment].filter (pKey exInstructor.id (firstDay exPeriod)) ∧
    calculate_instructor_payments [exInstructor] [] exPeriod
        [exApprovedPayment] = ([], [exApprovedPayment]) := by
  have h := C9_zero_hours_no_record [exInstructor] [] exPeriod
    [exApprovedPayment]
  have hz : ∀ i ∈ [exInstructor], i.status = "active" →
      totalHours [] i.id (firstDay exPeriod) (lastDay exPeriod) = 0 := by
    intro i hi hact
    simp [totalHours]
  exact ⟨h.1 exInstructor (by simp) rfl (hz exInstructor (by simp) rfl),
    h.2 hz⟩

/-- C10: every row the payment calculator upserts for the month ends
with status `"pending"`, and so a settlement run performed immediately
afterwards — which sums only `"approved"` or `"paid"` rows — counts
none of them: when every row of the month was just recomputed, the
summary's `instructor_payments` is 0. -/
theorem C10_recomputed_payments_not_counted (instructors : List Instructor)
    (asgs : List CourseInstructor) (period : Date)
    (table : List InstructorPayment) (members : List Member)
    (payments : List Payment) (expenses : List Expense)
    (summaryTable : List MonthlyFinancial)
    (distTable : List MemberDistribution) (r : ℚ)
    (hids : (instructors.map (fun i => i.id)).Nodup)
    (hwf : KeyWF table) :
    (∀ q ∈ (calculate_instructor_payments instructors asgs period table).2,
      q.period_month = firstDay period →
      (∃ i ∈ instructors, i.status = "active" ∧
        0 < totalHours asgs i.id (firstDay period) (lastDay period) ∧
        q.instructor_id = i.id) →
      q.status = "pending") ∧
    ((∀ q ∈ (calculate_instructor_payments instructors asgs period
        table).2, q.period_month = firstDay period →
        ∃ i ∈ instructors, i.status = "active" ∧
          0 < totalHours asgs i.id (firstDay period) (lastDay period) ∧
          q.instructor_id = i.id) →
      (calculate_monthly_profit members payments
        (calculate_instructor_payments instructors asgs period table).2
        expenses summaryTable distTable period
        r).summary.instructor_payments = 0) := by
  have hnd' : (((instructors.filter (fun i => i.status == "active")).map
      (fun i => i.id))).Nodup :=
    hids.sublist ((List.filter_sublist instructors).map _)
  have ha : ∀ q ∈ (calculate_instructor_payments instructors asgs period
      table).2, q.period_month = firstDay period →
      (∃ i ∈ instructors, i.status = "active" ∧
        0 < totalHours asgs i.id (firstDay period) (lastDay period) ∧
        q.instructor_id = i.id) →
      q.status = "pending" := by
    intro q hq hper hex
    obtain ⟨i, hi, hact, hth, hqid⟩ := hex
    have hif : i ∈ instructors.filter (fun i => i.status == "active") :=
      List.mem_filter.2 ⟨hi, by simp [hact]⟩
    obtain ⟨pd, hpd⟩ := runPayments_establishes asgs (firstDay period)
      (lastDay period) (instructors.filter (fun i => i.status == "active"))
      table hnd' hwf i hif hth
    have hqk : pKey i.id (firstDay period) q = true :=
      (pKey_true_iff _ _ _).2 ⟨hqid, hper⟩
    have hqmem : q ∈ (calculate_instructor_payments instructors asgs
        period table).2.filter (pKey i.id (firstDay period)) :=
      List.mem_filter.2 ⟨hq, hqk⟩
    rw [show (calculate_instructor_payments instructors asgs period
      table).2 = (runPayments asgs (firstDay period) (lastDay period)
        (instructors.filter (fun i => i.status == "active")) table).2
      from rfl, hpd] at hqmem
    rw [List.mem_singleton.1 hqmem]
    exact storedRow_status i _ (firstDay period) pd
  refine ⟨ha, ?_⟩
  intro hall
  rw [calculate_monthly_profit_summary, settlementSummary_instructor_payments]
  unfold instructorPaymentsTotal
  have hnil : (calculate_instructor_payments instructors asgs period
      table).2.filter (fun q => q.period_month == firstDay period &&
        (q.status == "approved" || q.status == "paid")) = [] := by
    rw [List.filter_eq_nil_iff]
    intro q hq
    by_cases hper : q.period_month = firstDay period
    · have hst := ha q hq hper (hall q hq hper)
      simp [hst]
    · simp [hper]
  rw [hnil]
  simp

/-- C10 witness: running the payment calculator for January 2025 from
an empty table and settling immediately yields an
`instructor_payments` total of 0. -/
theorem C10_recomputed_payments_not_counted_witness :
    (calculate_monthly_profit [] [] (calculate_instructor_payments
        [exInstructor] [exAssignment] exPeriod []).2 [] [] [] exPeriod
      20).summary.instructor_payments = 0 := by
  have h := C10_recomputed_payments_not_counted [exInstructor]
    [exAssignment] exPeriod [] [] [] [] [] [] 20 (by simp)
    (by intro iid f; simp)
  apply h.2
  intro q hq hper
  refine ⟨exInstructor, by simp, rfl, ?_, ?_⟩
  · norm_num [totalHours, firstDay, lastDay, dayBeforeFirst, daysInMonth,
      isLeap, Date.le, exInstructor, exCourse, exAssignment, exPeriod]
  · have : q ∈ [storedRow exInstructor 40 (firstDay exPeriod) none] := by
      rw [show (calculate_instructor_payments [exInstructor] [exAssignment]
        exPeriod []).2 = [storedRow exInstructor 40 (firstDay exPeriod)
          none] from by
        norm_num [calculate_instructor_payments, runPayments, upsertCalc,
          totalHours, firstDay, lastDay, dayBeforeFirst, daysInMonth,
          isLeap, Date.le, exInstructor, exCourse, exAssignment,
          exPeriod]] at hq
      exact hq
    rw [List.mem_singleton.1 this]
    rfl

end EduCoop
